import Mathlib

/-!
Verification development for the `mapper` package of the libovsdb repository
(`mapper/info.go`).  The mapper projects rows of an OVSDB table (column/value
bags) onto user-defined Go records whose fields carry `ovsdb:"column"` tags.

The embedding models the fragment of Go reflection that `info.go` exercises:
a type grammar covering the native types produced by the schema (`GoType`),
values carrying their dynamic types (`GoValue`), Go assignability and
convertibility restricted to that grammar, and the reflect operations used by
the source (`Kind`, `Elem`, `Convert`, `Set`, `FieldByName`, field offsets).

The `ovsdb` helper package (schemas, `NativeType`, `OvsToNative`,
`IsDefaultValue`) is not part of the sources under verification; those
definitions are modelled from the specification and are marked as such.
-/

set_option maxHeartbeats 1000000

namespace LibOVSDB

/-- The reflect kinds distinguished by `info.go`.  Named string types (Go enum
types generated for OVSDB enums) share the kind `strK` with `string`, exactly
as `reflect.Kind` collapses defined types onto their underlying kind. -/
inductive GoKind where
  | strK
  | intK
  | realK
  | boolK
  | ptrK
  | sliceK
  | mapK
  | structK
  deriving DecidableEq, Repr

/-- Go types reachable in the mapper: the native types a column schema can
produce, defined string types (enums), pointers and slices of those, and the
struct type `reflect.Value` itself, which appears in `SetField` through the
expression `reflect.TypeOf(v.Elem())` (see `Info.SetField` below). -/
inductive GoType where
  | str
  | namedStr (tyName : String)
  | int
  | real
  | bool
  | ptr (elem : GoType)
  | slice (elem : GoType)
  | mapT (key val : GoType)
  | ovsSetT
  | ovsMapT
  | structT (tyName : String)
  | reflectValueT
  deriving DecidableEq, Repr

/-- `reflect.Type.Kind()`. -/
def GoType.kind : GoType → GoKind
  | .str => .strK
  | .namedStr _ => .strK
  | .int => .intK
  | .real => .realK
  | .bool => .boolK
  | .ptr _ => .ptrK
  | .slice _ => .sliceK
  | .mapT _ _ => .mapK
  | .ovsSetT => .structK
  | .ovsMapT => .structK
  | .structT _ => .structK
  | .reflectValueT => .structK

/-- The underlying type in the sense of the Go specification: a defined string
type has underlying type `string`; every other representable type is its own
underlying type. -/
def GoType.underlying : GoType → GoType
  | .namedStr _ => .str
  | t => t

/-- `reflect.Type.Elem()`: defined for pointer, slice and map types (the map
case yields the value type); on every other representable kind the reflect
call panics, modelled by `none`. -/
def GoType.typeElem : GoType → Option GoType
  | .ptr e => some e
  | .slice e => some e
  | .mapT _ v => some v
  | _ => none

def GoKind.isNumeric : GoKind → Bool
  | .intK => true
  | .realK => true
  | _ => false

def GoKind.isScalar : GoKind → Bool
  | .strK => true
  | .intK => true
  | .realK => true
  | .boolK => true
  | _ => false

/-- Go assignability (`reflect.Type.AssignableTo`) restricted to the types of
the grammar.  Between two distinct representable types the Go rule
(identical underlying types with at least one of the two not a defined type)
can never fire: the scalar types are all defined types, and two distinct
composite types of the grammar always differ in their own underlying types.
Hence assignability coincides with type identity here. -/
def assignableTo (t u : GoType) : Bool := t == u

/-- Go convertibility (`reflect.Type.ConvertibleTo`) restricted to the types
of the grammar: identity, identical underlying types (the `string` family,
covering enum types), numeric conversions, the integer-to-string rune
conversion, and unnamed pointer types whose base types have identical
underlying types. -/
def convertibleTo (vt ft : GoType) : Bool :=
  vt == ft
  || vt.underlying == ft.underlying
  || (vt.kind.isNumeric && ft.kind.isNumeric)
  || (vt.kind == GoKind.intK && ft.underlying == GoType.str)
  || (match vt, ft with
      | .ptr a, .ptr b => a.underlying == b.underlying
      | _, _ => false)

/-- Values carrying their dynamic Go type.  Typed nil pointers and empty
slices keep their element type, as reflect values do.  `ovsSet`/`ovsMap` are
the wire-side set and map wrappers of the ovsdb package. -/
inductive GoValue where
  | str (s : String)
  | namedStr (tyName : String) (s : String)
  | int (n : Int)
  | real (r : Int)
  | bool (b : Bool)
  | ptr (elem : GoType) (pointee : Option GoValue)
  | slice (elem : GoType) (elems : List GoValue)
  | mapV (key val : GoType) (entries : List (GoValue × GoValue))
  | ovsSet (elems : List GoValue)
  | ovsMap (entries : List (GoValue × GoValue))
  | structV (tyName : String)
  | reflectValueV

/-- The dynamic type of a value (`reflect.TypeOf`). -/
def GoValue.typeOf : GoValue → GoType
  | .str _ => .str
  | .namedStr n _ => .namedStr n
  | .int _ => .int
  | .real _ => .real
  | .bool _ => .bool
  | .ptr e _ => .ptr e
  | .slice e _ => .slice e
  | .mapV k v _ => .mapT k v
  | .ovsSet _ => .ovsSetT
  | .ovsMap _ => .ovsMapT
  | .structV n => .structT n
  | .reflectValueV => .reflectValueT

/-- The zero value of a type (`reflect.Zero`); its dynamic type is the type
itself, see `typeOf_zeroValue`. -/
def zeroValue : GoType → GoValue
  | .str => .str ""
  | .namedStr n => .namedStr n ""
  | .int => .int 0
  | .real => .real 0
  | .bool => .bool false
  | .ptr e => .ptr e none
  | .slice e => .slice e []
  | .mapT k v => .mapV k v []
  | .ovsSetT => .ovsSet []
  | .ovsMapT => .ovsMap []
  | .structT n => .structV n
  | .reflectValueT => .reflectValueV

/-- The string produced by the Go conversion `string(rune(n))`: the code
point itself when valid, the replacement character otherwise. -/
def runeString (n : Int) : String :=
  if 0 ≤ n && n ≤ 0x10FFFF && !(0xD800 ≤ n && n ≤ 0xDFFF) then
    String.mk [Char.ofNat n.toNat]
  else
    "�"

/-- `reflect.Value.Convert(t)` for the convertible pairs of the grammar.
Conversions between the string family retag the payload; integer-to-string is
the rune conversion; pointer conversions retag the pointer and (in this value
model, where pointees carry their own type) the pointee.  On pairs that are
not convertible the function is never consulted by the mapper; it returns the
value unchanged there. -/
def convertValue (v : GoValue) (t : GoType) : GoValue :=
  match v, t with
  | .str s, .str => .str s
  | .str s, .namedStr n => .namedStr n s
  | .namedStr _ s, .str => .str s
  | .namedStr _ s, .namedStr n => .namedStr n s
  | .int n, .str => .str (runeString n)
  | .int n, .namedStr m => .namedStr m (runeString n)
  | .int n, .int => .int n
  | .int n, .real => .real n
  | .real r, .int => .int r
  | .real r, .real => .real r
  | .bool b, .bool => .bool b
  | .ptr _ (some (.str s)), .ptr (.namedStr n) => .ptr (.namedStr n) (some (.namedStr n s))
  | .ptr _ (some (.namedStr _ s)), .ptr (.str) => .ptr .str (some (.str s))
  | .ptr _ (some (.namedStr _ s)), .ptr (.namedStr n) => .ptr (.namedStr n) (some (.namedStr n s))
  | .ptr _ p, .ptr b => .ptr b p
  | v, _ => v

/-- `reflect.Value.Elem()` on a pointer value (dereference).  Only reachable
in `SetField` through a branch shown to be dead, see `setField_deref_dead`. -/
def derefGo : GoValue → GoValue
  | .ptr _ (some x) => x
  | v => v

/-- `reflect.Value.Len()`: defined for arrays, channels, maps, slices and
strings; on every other kind the call panics, modelled by `none`.  At its
only call site (the slice branch of `SetField`) the value's type has already
survived `Type.Elem`, so only slice, map and pointer values can reach the
call, and of those only the pointer panics. -/
def goLen : GoValue → Option Nat
  | .slice _ vs => some vs.length
  | .mapV _ _ es => some es.length
  | .str s => some s.length
  | .namedStr _ s => some s.length
  | _ => none

/-! ## Errors

The error taxonomy of the mapper.  Panics of the Go runtime (reflect calls on
values of the wrong kind, nil dereferences) are modelled as a distinguished
`goPanic` arm so that a panic is never conflated with a returned error. -/

/-- Errors returned (or panics raised) by the mapper and the modelled ovsdb
value helpers. -/
inductive MapperError where
  | wrongType (fnName expected : String)
  | errMapper (objType field fieldType fieldTag reason : String)
  | unknownColumn (column : String)
  | fieldNoOrm
  | ptrNoField
  | assign (column field : String)
  | elemAssign (column field : String)
  | invalidValue (msg : String)
  | enumOutOfRange (value : String)
  | goPanic (msg : String)
  deriving DecidableEq, Repr

def MapperError.isGoPanic : MapperError → Bool
  | .goPanic _ => true
  | _ => false

/-- True exactly for the two `MapperAssign` errors `SetField` produces itself
(the element-not-convertible error and the not-assignable-or-convertible
error). -/
def MapperError.isMapperAssign : MapperError → Bool
  | .assign _ _ => true
  | .elemAssign _ _ => true
  | _ => false

/-! ## Schema model

Modelled from the spec: the schema component is not among the sources under
verification, only its interface is used by `info.go`. -/

/-- Modelled from the spec: an OVSDB atomic type is one of integer, real,
boolean, string, uuid. -/
inductive AtomicType where
  | integer
  | real
  | boolean
  | string
  | uuid
  deriving DecidableEq, Repr

/-- Modelled from the spec: a column type is a base atomic type, or a set
with an element atomic type and a min/max arity (`none` meaning unlimited),
or a map with key and value atomic types. -/
inductive ExtendedType where
  | atomic (base : AtomicType)
  | set (elem : AtomicType) (minArity : Nat) (maxArity : Option Nat)
  | map (key val : AtomicType)
  deriving DecidableEq, Repr

/-- Modelled from the spec: a column schema carries its type descriptor and
an optional enum membership constraint (empty list meaning unconstrained). -/
structure ColumnSchema where
  type : ExtendedType
  enum : List String := []
  deriving DecidableEq, Repr

/-- Modelled from the spec: a table schema has a map of column schemas and a
list of index groups (each an ordered list of column names). -/
structure TableSchema where
  name : String
  columns : List (String × ColumnSchema)
  indexes : List (List String)
  deriving DecidableEq, Repr

/-- Modelled from the spec: the UUID pseudo-column backing the `_uuid`
pseudo-index. -/
def uuidColumn : ColumnSchema := { type := .atomic .uuid }

/-- Modelled from the spec: `column(table, name)` lookup; the pseudo-column
`_uuid` is resolvable on every table. -/
def TableSchema.Column (t : TableSchema) (c : String) : Option ColumnSchema :=
  if c == "_uuid" then some uuidColumn
  else (t.columns.find? (fun p => p.1 == c)).map (fun p => p.2)

/-- The native Go type of an atomic type (UUIDs are native strings). -/
def atomicNative : AtomicType → GoType
  | .integer => .int
  | .real => .real
  | .boolean => .bool
  | .string => .str
  | .uuid => .str

/-- Modelled from the spec: `native_type(column)`, the type descriptor the
mapper checks record fields against.  A set column of arity exactly one is a
bare native atom; an optional column (arity zero to one) is a pointer to the
native atom; any other set is a slice; a map column is a native map. -/
def NativeType (cs : ColumnSchema) : GoType :=
  match cs.type with
  | .atomic b => atomicNative b
  | .set e minA maxA =>
    if maxA == some 1 && minA == 1 then atomicNative e
    else if maxA == some 1 && minA == 0 then .ptr (atomicNative e)
    else .slice (atomicNative e)
  | .map k v => .mapT (atomicNative k) (atomicNative v)

/-- The canonical all-zero UUID string. -/
def zeroUUID : String := "00000000-0000-0000-0000-000000000000"

/-- Modelled from the spec: `is_default(column_schema, native_value)` is true
for the zero of the atomic type, the empty set, the empty map, the zero UUID,
and an absent optional (nil pointer). -/
def IsDefaultValue (cs : ColumnSchema) (v : GoValue) : Bool :=
  match v with
  | .str s => if cs.type == ExtendedType.atomic AtomicType.uuid then s == "" || s == zeroUUID else s == ""
  | .namedStr _ s => s == ""
  | .int n => n == 0
  | .real r => r == 0
  | .bool b => b == false
  | .ptr _ p => p.isNone
  | .slice _ es => es.isEmpty
  | .mapV _ _ es => es.isEmpty
  | .ovsSet es => es.isEmpty
  | .ovsMap es => es.isEmpty
  | .structV _ => false
  | .reflectValueV => false

/-- Whether the Go values in the model reflect to a valid `reflect.Value`
(`reflect.ValueOf(x).IsValid()`).  Invalidity arises only from an untyped nil
interface, which no value of this grammar denotes, so the check is constantly
true here; `getValidIndexes` still performs it as the source does. -/
def IsValidReflect (_ : GoValue) : Bool := true

/-- Modelled from the spec: enum columns accept only declared members;
non-string payloads are not subject to the membership check. -/
def enumAllows (cs : ColumnSchema) (v : GoValue) : Bool :=
  if cs.enum.isEmpty then true
  else
    match v with
    | .str s => cs.enum.contains s
    | _ => true

/-- The string payload of an atom, for error reporting. -/
def GoValue.showAtom : GoValue → String
  | .str s => s
  | .namedStr _ s => s
  | _ => ""

/-- Modelled from the spec: conversion of a single wire atom expected at the
native type `nt`, with the enum membership rule applied. -/
def atomToNative (cs : ColumnSchema) (nt : GoType) (x : GoValue) : Except MapperError GoValue :=
  if x.typeOf == nt then
    if enumAllows cs x then .ok x
    else .error (.enumOutOfRange x.showAtom)
  else .error (.invalidValue "wire atom does not match the column base type")

/-- Modelled from the spec: `ovs_to_native(column_schema, wire_value)`.
A bare atom and a single-element set are both accepted for a column of max
arity one; an optional column decodes to a pointer, absent values to a nil
pointer; a larger set decodes to a slice of natives; a wire map decodes to a
native map, rejecting duplicate keys; enum columns accept only declared
members. -/
def OvsToNative (cs : ColumnSchema) (v : GoValue) : Except MapperError GoValue :=
  match cs.type with
  | .atomic b =>
    let nt := atomicNative b
    match v with
    | .ovsSet [x] => atomToNative cs nt x
    | .ovsSet _ => .error (.invalidValue "expected exactly one atom for an atomic column")
    | x => atomToNative cs nt x
  | .set e minA maxA =>
    let nt := atomicNative e
    if maxA == some 1 && minA == 0 then
      match v with
      | .ovsSet [] => .ok (.ptr nt none)
      | .ovsSet [x] => (atomToNative cs nt x).map (fun y => .ptr nt (some y))
      | .ovsSet _ => .error (.invalidValue "arity violation on an optional column")
      | x => (atomToNative cs nt x).map (fun y => .ptr nt (some y))
    else if maxA == some 1 && minA == 1 then
      match v with
      | .ovsSet [x] => atomToNative cs nt x
      | .ovsSet _ => .error (.invalidValue "arity violation on a scalar set column")
      | x => atomToNative cs nt x
    else
      match v with
      | .ovsSet xs =>
        if xs.all (fun x => x.typeOf == nt && enumAllows cs x) then .ok (.slice nt xs)
        else .error (.invalidValue "set element does not match the column base type")
      | _ => .error (.invalidValue "expected a wire set")
  | .map k w =>
    match v with
    | .ovsMap entries =>
      if entries.all (fun p => p.1.typeOf == atomicNative k && p.2.typeOf == atomicNative w) then
        if (entries.map (fun p => p.1.showAtom)).Nodup then
          .ok (.mapV (atomicNative k) (atomicNative w) entries)
        else .error (.invalidValue "duplicate keys in a wire map")
      else .error (.invalidValue "map entry does not match the column types")
    | _ => .error (.invalidValue "expected a wire map")

/-! ## Records

The record argument of `NewInfo` is an arbitrary Go value; the mapper only
ever inspects whether it is a pointer to a struct and, if so, the struct's
fields (name, `ovsdb` tag, type, offset) and their values. -/

/-- A struct field declaration: name, `ovsdb` tag (empty string meaning an
absent tag, as `reflect.StructTag.Get` reports it) and type. -/
structure FieldDecl where
  name : String
  tag : String
  type : GoType
  deriving DecidableEq, Repr

/-- A struct instance: its type name and its fields paired with their current
values.  The offset of a field is its position in the list; the spec allows
field identities to be realised by offsets or indices interchangeably, and
the grammar contains no zero-sized types, so positions are a faithful model
of reflect struct offsets. -/
structure RecordObj where
  typeName : String
  fields : List (FieldDecl × GoValue)

/-- `reflect.Value.FieldByName`: the first field with the given name (Go
structs cannot repeat field names, see `RecordObj.wf`). -/
def RecordObj.lookupField (r : RecordObj) (name : String) : Option (FieldDecl × GoValue) :=
  r.fields.find? (fun p => p.1.name == name)

/-- `reflect.Value.Set` through a field selected by name: replaces the value
of the first field with that name. -/
def RecordObj.setFieldValue (r : RecordObj) (name : String) (v : GoValue) : RecordObj :=
  { r with
    fields := r.fields.map (fun p => if p.1.name == name then (p.1, v) else p) }

/-- Go structs cannot declare two fields with the same name. -/
def RecordObj.wf (r : RecordObj) : Prop :=
  (r.fields.map (fun p => p.1.name)).Nodup

/-- The columns appearing as (non-empty) tags on the fields of a record. -/
def RecordObj.taggedColumns (r : RecordObj) : List String :=
  r.fields.filterMap (fun p => if p.1.tag == "" then none else some p.1.tag)

/-- The argument of `NewInfo` as the reflect checks see it: a non-pointer
value, a nil pointer (whose `reflect.Indirect` is the invalid value), a
pointer to a non-struct value, or a pointer to a struct. -/
inductive ObjArg where
  | nonPtr (t : GoType)
  | nilPtr (t : GoType)
  | ptrToNonStruct (t : GoType)
  | ptrToStruct (r : RecordObj)

/-! ## The mapper (`mapper/info.go`) -/

/-- `Info` handles the type map of an object: the field name indexed by
column, the object, and the table schema (`info.go`, struct `Info`). -/
structure Info where
  fields : List (String × String)
  obj : RecordObj
  table : TableSchema

/-- Go map lookup on the column-to-field map. -/
def lookupAssoc (m : List (String × String)) (k : String) : Option String :=
  (m.find? (fun p => p.1 == k)).map (fun p => p.2)

/-- Go map store `m[k] = v`: replaces an existing binding or appends one. -/
def mapInsert (m : List (String × String)) (k v : String) : List (String × String) :=
  match m with
  | [] => [(k, v)]
  | (k', v') :: rest => if k' == k then (k, v) :: rest else (k', v') :: mapInsert rest k v

/-- `Info.FieldByColumn`: returns the field value that corresponds to a
column, or the column-not-found error.  A field name absent from the struct
would make `FieldByName(...).Interface()` panic in Go; it cannot arise from
`NewInfo`. -/
def Info.FieldByColumn (i : Info) (column : String) : Except MapperError GoValue :=
  match lookupAssoc i.fields column with
  | none => .error (.unknownColumn column)
  | some fieldName =>
    match i.obj.lookupField fieldName with
    | some p => .ok p.2
    | none => .error (.goPanic "reflect: Interface on zero Value")

/-- `Info.hasColumn`. -/
def Info.hasColumn (i : Info) (column : String) : Bool :=
  (lookupAssoc i.fields column).isSome

/-- The pointer-field pre-step of `SetField`: its first branch compares
against the type `reflect.Value` itself, because the source writes
`reflect.TypeOf(v.Elem())` where `v.Elem()` is a `reflect.Value`; the second
branch routes the value through `OvsToNative` with the column's schema. -/
def setFieldStep (i : Info) (column : String) (ft : GoType) (value : GoValue) :
    Except MapperError GoValue :=
  if ft.kind == GoKind.ptrK then
    if value.typeOf.kind == GoKind.ptrK && assignableTo ft GoType.reflectValueT then
      .ok (derefGo value)
    else
      match i.table.Column column with
      | none => .error (.goPanic "nil column schema")
      | some cs => OvsToNative cs value
  else .ok value

/-- The conversion pipeline of `SetField` after the direct-assignability test
has failed: the pointer-field pre-step, then the convertibility test, then
the slice branch, then the final error.  Returns the outcome together with
the record (unchanged whenever an error or panic occurs before the single
`fieldValue.Set` call, which is the last action of the source). -/
def setFieldConvert (i : Info) (column fieldName : String) (ft : GoType) (value : GoValue) :
    Except MapperError Unit × Info :=
  match setFieldStep i column ft value with
  | .error e => (.error e, i)
  | .ok v1 =>
    if convertibleTo v1.typeOf ft then
      (.ok (), { i with obj := i.obj.setFieldValue fieldName (convertValue v1 ft) })
    else if ft.kind == GoKind.sliceK then
      match v1.typeOf.typeElem with
      | none => (.error (.goPanic "reflect: Elem of invalid type"), i)
      | some ve =>
        match ft.typeElem with
        | none => (.error (.goPanic "unreachable: slice kind without element"), i)
        | some fe =>
          if !(convertibleTo ve fe) then (.error (.elemAssign column fieldName), i)
          else
            -- nv := reflect.Zero(fieldType); for i < v.Len() append the
            -- converted element; Len panics on a pointer value, Index
            -- panics on a (necessarily non-empty) map value
            match goLen v1 with
            | none => (.error (.goPanic "reflect: call of Len on non-slice Value"), i)
            | some n =>
              if n == 0 then
                (.ok (), { i with obj := i.obj.setFieldValue fieldName (.slice fe []) })
              else
                match v1 with
                | .slice _ vs =>
                  let nv : GoValue := .slice fe (vs.map (fun x => convertValue x fe))
                  (.ok (), { i with obj := i.obj.setFieldValue fieldName nv })
                | _ => (.error (.goPanic "reflect: Value.Index on map Value"), i)
    else (.error (.assign column fieldName), i)

/-- `Info.SetField`: sets the field in the column to the specified value.
The first component is the returned error (or the panic raised), the second
is the record after the call. -/
def Info.SetField (i : Info) (column : String) (value : GoValue) :
    Except MapperError Unit × Info :=
  match lookupAssoc i.fields column with
  | none => (.error (.unknownColumn column), i)
  | some fieldName =>
    match i.obj.lookupField fieldName with
    | none => (.error (.goPanic "reflect: call of Type on zero Value"), i)
    | some p =>
      if assignableTo p.1.type value.typeOf then
        (.ok (), { i with obj := i.obj.setFieldValue fieldName value })
      else
        setFieldConvert i column fieldName p.1.type value

/-- The argument of `ColumnByPtr` as the reflect checks see it: either not a
pointer, or a pointer whose offset from the base of the record is `off`
(field identities are positions, see `RecordObj`). -/
inductive FieldPtrArg where
  | nonPtr (t : GoType)
  | ptrAt (off : Nat)

/-- The loop of `ColumnByPtr`: scan the struct fields for one whose offset
equals the argument offset; on a hit, read its tag and require the tag to be
a key of the column-to-field map. -/
def columnByPtrLoop (i : Info) (decls : List FieldDecl) (j off : Nat) :
    Except MapperError String :=
  match decls with
  | [] => .error .ptrNoField
  | fd :: rest =>
    if j == off then
      if (lookupAssoc i.fields fd.tag).isSome then .ok fd.tag
      else .error .fieldNoOrm
    else columnByPtrLoop i rest (j + 1) off

/-- `Info.ColumnByPtr`: returns the column name that corresponds to the field
identified by the field pointer. -/
def Info.ColumnByPtr (i : Info) (fieldPtr : FieldPtrArg) : Except MapperError String :=
  match fieldPtr with
  | .nonPtr _ => .error (.wrongType "ColumnByPointer" "pointer to a field in the struct")
  | .ptrAt off => columnByPtrLoop i (i.obj.fields.map (fun p => p.1)) 0 off

/-- The inner loop of `getValidIndexes` over one index group: `ok false`
models `continue OUTER`, `ok true` a fully validated group, `error` the
propagated `FieldByColumn` error. -/
def checkIndexCols (i : Info) : List String → Except MapperError Bool
  | [] => .ok true
  | col :: rest =>
    if !(i.hasColumn col) then .ok false
    else
      match i.table.Column col with
      | none => .ok false
      | some cs =>
        match i.FieldByColumn col with
        | .error e => .error e
        | .ok field =>
          if !(IsValidReflect field) || IsDefaultValue cs field then .ok false
          else checkIndexCols i rest

/-- The outer loop of `getValidIndexes`, accumulating validated groups in
order. -/
def validIndexesLoop (i : Info) : List (List String) → Except MapperError (List (List String))
  | [] => .ok []
  | idx :: rest =>
    match checkIndexCols i idx with
    | .error e => .error e
    | .ok true =>
      match validIndexesLoop i rest with
      | .error e => .error e
      | .ok vs => .ok (idx :: vs)
    | .ok false => validIndexesLoop i rest

/-- `Info.getValidIndexes`: the list of indexes (sets of columns) for which
the object has non-default values, the `_uuid` pseudo-index considered first
and the schema-declared indexes following in declared order. -/
def Info.getValidIndexes (i : Info) : Except MapperError (List (List String)) :=
  validIndexesLoop i ([["_uuid"]] ++ i.table.indexes)

/-- The schema-based type check of `NewInfo`, branch for branch: a column
whose native type is a slice of string kind is accepted as a slice of enums
(the field type is not examined in that branch of the source); a string-kind
native accepts any string-kind field (enum); a pointer-to-string-kind native
accepts any pointer-to-string-kind field; otherwise the field type must equal
the native type exactly. -/
def fieldTypeOK (expType fieldType : GoType) : Bool :=
  if expType.kind == GoKind.sliceK && (expType.typeElem.map GoType.kind) == some GoKind.strK then
    true
  else if expType.kind == GoKind.strK && fieldType.kind == GoKind.strK then
    true
  else if expType.kind == GoKind.ptrK && (expType.typeElem.map GoType.kind) == some GoKind.strK
      && fieldType.kind == GoKind.ptrK && (fieldType.typeElem.map GoType.kind) == some GoKind.strK then
    true
  else expType == fieldType

/-- The field loop of `NewInfo`: untagged fields are ignored; a tagged field
requires its column to exist in the schema and to pass the type check, and is
then recorded in the column-to-field map. -/
def newInfoFields (table : TableSchema) (objType : String) :
    List FieldDecl → List (String × String) → Except MapperError (List (String × String))
  | [], acc => .ok acc
  | fd :: rest, acc =>
    if fd.tag == "" then newInfoFields table objType rest acc
    else
      match table.Column fd.tag with
      | none =>
        .error (.errMapper objType fd.name (toString (repr fd.type)) fd.tag
          "Column does not exist in schema")
      | some column =>
        if fieldTypeOK (NativeType column) fd.type then
          newInfoFields table objType rest (mapInsert acc fd.tag fd.name)
        else
          .error (.errMapper objType fd.name (toString (repr fd.type)) fd.tag
            "Wrong type, column expects the native type")

/-- `NewInfo`: creates a mapper `Info` structure around an object based on a
given table schema.  The object must be a pointer to a struct (a nil pointer
indirects to the invalid value, which is not a struct). -/
def NewInfo (table : TableSchema) (obj : ObjArg) : Except MapperError Info :=
  match obj with
  | .nonPtr _ => .error (.wrongType "NewMapperInfo" "pointer to a struct")
  | .nilPtr _ => .error (.wrongType "NewMapperInfo" "pointer to a struct")
  | .ptrToNonStruct _ => .error (.wrongType "NewMapperInfo" "pointer to a struct")
  | .ptrToStruct r =>
    match newInfoFields table r.typeName (r.fields.map (fun p => p.1)) [] with
    | .error e => .error e
    | .ok fields => .ok { fields := fields, obj := r, table := table }

/-! ## Claim-side definitions

Definitions written from the words of the specification claims, to be
compared with the embedded source functions above. -/

def exceptIsOk {ε α : Type} : Except ε α → Bool
  | .ok _ => true
  | .error _ => false

/-- The non-empty tags of a field declaration list. -/
def taggedTags (decls : List FieldDecl) : List String :=
  decls.filterMap (fun d => if d.tag == "" then none else some d.tag)

/-- The record with its untagged fields removed. -/
def RecordObj.eraseUntagged (r : RecordObj) : RecordObj :=
  { r with fields := r.fields.filter (fun p => !(p.1.tag == "")) }

/-- The schema type check as the amended claim C1 states it: an exact type
match is accepted; a column of native string kind accepts any string-kind
scalar field; a column whose native type is a sequence of strings accepts any
field type whatsoever; a column whose native type is an optional string
accepts any optional string-kind field. -/
def fieldTypeOKSpec (expType fieldType : GoType) : Bool :=
  expType == fieldType
  || (expType.kind == GoKind.strK && fieldType.kind == GoKind.strK)
  || (expType.kind == GoKind.sliceK && (expType.typeElem.map GoType.kind) == some GoKind.strK)
  || (expType.kind == GoKind.ptrK && (expType.typeElem.map GoType.kind) == some GoKind.strK
      && fieldType.kind == GoKind.ptrK && (fieldType.typeElem.map GoType.kind) == some GoKind.strK)

/-- Claim C3's per-column predicate: the column has a non-default value on
the record (it is mapped to a field of the record, it exists in the schema,
and the field's value is valid and non-default). -/
def colHasNonDefault (i : Info) (c : String) : Bool :=
  i.hasColumn c &&
  (match i.table.Column c, i.FieldByColumn c with
   | some cs, .ok v => IsValidReflect v && !(IsDefaultValue cs v)
   | _, _ => false)

/-- Every column of the map names a field present on the record; `NewInfo`
establishes this, and lookups rely on it (a violation makes the source panic
inside `FieldByColumn`). -/
def Info.wfFields (i : Info) : Prop :=
  ∀ p ∈ i.fields, (i.obj.lookupField p.2).isSome = true

/-- Branch (3) of amended claim C2, in the claim's order: for a sequence
field, a sequence value with a convertible element type is converted
element-wise; a sequence value with a non-convertible element type fails
`MapperAssign`.  A non-sequence value panics when its type has no element
type; when it does and the element type is convertible, an empty map value
assigns the zero sequence (the conversion loop never runs), a non-empty map
value panics on the index read, and a pointer value panics on the length
read; a non-convertible element type fails `MapperAssign`. -/
def claimSliceCase (i : Info) (column fieldName : String) (ft : GoType) (value : GoValue) :
    Except MapperError Unit × Info :=
  match ft.typeElem with
  | none => (.error (.goPanic "unreachable: slice kind without element"), i)
  | some fe =>
    match value with
    | .slice ve vs =>
      if convertibleTo ve fe then
        let nv : GoValue := .slice fe (vs.map (fun x => convertValue x fe))
        (.ok (), { i with obj := i.obj.setFieldValue fieldName nv })
      else (.error (.elemAssign column fieldName), i)
    | _ =>
      match value.typeOf.typeElem with
      | none => (.error (.goPanic "reflect: Elem of invalid type"), i)
      | some ve =>
        if convertibleTo ve fe then
          match value with
          | .mapV _ _ [] =>
            (.ok (), { i with obj := i.obj.setFieldValue fieldName (.slice fe []) })
          | .mapV _ _ (_ :: _) => (.error (.goPanic "reflect: Value.Index on map Value"), i)
          | _ => (.error (.goPanic "reflect: call of Len on non-slice Value"), i)
        else (.error (.elemAssign column fieldName), i)

/-- Branch (4) of claim C2: an optional (pointer) field is assigned by
routing the value through the wire-to-native conversion of the column, which
unwraps single-element sets and wraps bare atoms into the optional, and then
converting the native to the field type. -/
def claimPtrCase (i : Info) (column fieldName : String) (ft : GoType) (value : GoValue) :
    Except MapperError Unit × Info :=
  match i.table.Column column with
  | none => (.error (.goPanic "nil column schema"), i)
  | some cs =>
    match OvsToNative cs value with
    | .error e => (.error e, i)
    | .ok v1 =>
      if convertibleTo v1.typeOf ft then
        (.ok (), { i with obj := i.obj.setFieldValue fieldName (convertValue v1 ft) })
      else (.error (.assign column fieldName), i)

/-- Amended claim C2 as a function, with the conversions tried in the order
the claim lists them: (1) direct assignability of the value to the field
type; (2) scalar-to-scalar convertibility (the enum case); (3) the sequence
case `claimSliceCase`; (4) the optional case `claimPtrCase`; otherwise
`MapperAssign`. -/
def setFieldClaim (i : Info) (column : String) (value : GoValue) :
    Except MapperError Unit × Info :=
  match lookupAssoc i.fields column with
  | none => (.error (.unknownColumn column), i)
  | some fieldName =>
    match i.obj.lookupField fieldName with
    | none => (.error (.goPanic "reflect: call of Type on zero Value"), i)
    | some p =>
      if assignableTo value.typeOf p.1.type then
        (.ok (), { i with obj := i.obj.setFieldValue fieldName value })
      else if value.typeOf.kind.isScalar && p.1.type.kind.isScalar
          && convertibleTo value.typeOf p.1.type then
        (.ok (), { i with obj := i.obj.setFieldValue fieldName (convertValue value p.1.type) })
      else if p.1.type.kind == GoKind.sliceK then
        claimSliceCase i column fieldName p.1.type value
      else if p.1.type.kind == GoKind.ptrK then
        claimPtrCase i column fieldName p.1.type value
      else (.error (.assign column fieldName), i)

/-! ## Concrete fixtures

A small table and records used by the witnesses and counterexamples. -/

/-- A table with a string column, a set-of-enums column, an optional string
column, and one declared index group per scalar column. -/
def table1 : TableSchema :=
  { name := "Bridge"
    columns :=
      [("name", { type := .atomic .string }),
       ("color", { type := .set .string 0 none, enum := ["red", "blue"] }),
       ("alias", { type := .set .string 0 (some 1) })]
    indexes := [["name"], ["alias"]] }

/-- A record matching `table1`: tagged fields for `_uuid`, `name`, `color`
and `alias`, plus one untagged field. -/
def rec1 : RecordObj :=
  { typeName := "bridgeType"
    fields :=
      [(⟨"Uuid", "_uuid", .str⟩, .str ""),
       (⟨"Name", "name", .str⟩, .str "br0"),
       (⟨"Color", "color", .slice (.namedStr "BridgeColor")⟩, .slice (.namedStr "BridgeColor") []),
       (⟨"Alias", "alias", .ptr .str⟩, .ptr .str none),
       (⟨"Scratch", "", .int⟩, .int 7)] }

/-- The `Info` that `NewInfo table1 rec1` constructs. -/
def info1 : Info :=
  { fields := [("_uuid", "Uuid"), ("name", "Name"), ("color", "Color"), ("alias", "Alias")]
    obj := rec1
    table := table1 }

/-- A record whose `color`-tagged field has type `int`, although the column's
native type is a slice of strings. -/
def recIntColor : RecordObj :=
  { typeName := "badColorType"
    fields := [(⟨"Color", "color", .int⟩, .int 0)] }

/-! ## Helper lemmas -/

theorem typeOf_zeroValue (t : GoType) : (zeroValue t).typeOf = t := by
  cases t <;> rfl

theorem assignableTo_eq_decide (a b : GoType) : assignableTo a b = (a == b) := rfl

theorem assignableTo_comm (a b : GoType) : assignableTo a b = assignableTo b a := by
  simp only [assignableTo]
  by_cases h : a = b
  · subst h; rfl
  · have h1 : (a == b) = false := by simp [h]
    have h2 : (b == a) = false := by simp [Ne.symm h]
    rw [h1, h2]

theorem assignableTo_true_iff (a b : GoType) : assignableTo a b = true ↔ a = b := by
  simp [assignableTo]

/-- A pointer type is never assignable to the struct type `reflect.Value`:
the branch of `SetField` guarded by this test is dead. -/
theorem setField_deref_dead (ft : GoType) (h : ft.kind = GoKind.ptrK) :
    assignableTo ft GoType.reflectValueT = false := by
  cases ft <;> simp_all [GoType.kind, assignableTo]

/-- Shape analysis of convertibility: a convertible pair is an identical
pair, a pair of scalar kinds, or a pair of pointer types. -/
theorem convertibleTo_shape (vt ft : GoType) (h : convertibleTo vt ft = true) :
    vt = ft ∨ (vt.kind.isScalar = true ∧ ft.kind.isScalar = true) ∨
      (∃ a b, vt = GoType.ptr a ∧ ft = GoType.ptr b) := by
  cases vt <;> cases ft <;>
    simp_all [convertibleTo, GoType.kind, GoType.underlying, GoKind.isNumeric, GoKind.isScalar]

/-- Convertibility into a slice type implies type identity. -/
theorem convertibleTo_slice_eq (vt fe : GoType) (h : convertibleTo vt (GoType.slice fe) = true) :
    vt = GoType.slice fe := by
  rcases convertibleTo_shape vt (GoType.slice fe) h with h1 | h1 | h1
  · exact h1
  · exact absurd h1.2 (by simp [GoType.kind, GoKind.isScalar])
  · obtain ⟨a, b, _, hb⟩ := h1
    exact absurd hb (by simp)

theorem lookupAssoc_nil (c : String) : lookupAssoc [] c = none := rfl

theorem lookupAssoc_cons (k' v' : String) (tl : List (String × String)) (c : String) :
    lookupAssoc ((k', v') :: tl) c = if k' = c then some v' else lookupAssoc tl c := by
  by_cases h : k' = c
  · simp [lookupAssoc, List.find?, h]
  · simp only [lookupAssoc, List.find?]
    rw [show ((k', v').1 == c) = false by simp [h]]
    simp [h]

theorem lookupAssoc_mapInsert (m : List (String × String)) (k v c : String) :
    lookupAssoc (mapInsert m k v) c = if c = k then some v else lookupAssoc m c := by
  induction m with
  | nil =>
    by_cases h : c = k
    · subst h; simp [mapInsert, lookupAssoc_cons]
    · simp [mapInsert, lookupAssoc_cons, h, Ne.symm h, lookupAssoc_nil]
  | cons hd tl ih =>
    obtain ⟨k', v'⟩ := hd
    by_cases hk : k' = k
    · subst hk
      by_cases h : c = k'
      · subst h
        simp [mapInsert, lookupAssoc_cons]
      · simp [mapInsert, lookupAssoc_cons, h, Ne.symm h]
    · by_cases h : k' = c
      · subst h
        have hck : ¬ k' = k := hk
        simp [mapInsert, hk, lookupAssoc_cons, Ne.symm hck, hck]
      · simp [mapInsert, hk, lookupAssoc_cons, h, ih]

theorem lookupAssoc_isSome_mapInsert (m : List (String × String)) (k v c : String) :
    (lookupAssoc (mapInsert m k v) c).isSome = true ↔
      c = k ∨ (lookupAssoc m c).isSome = true := by
  rw [lookupAssoc_mapInsert]
  by_cases h : c = k <;> simp [h]

/-- An association found by `lookupAssoc` is a member of the list. -/
theorem lookupAssoc_mem (m : List (String × String)) (c fn : String)
    (h : lookupAssoc m c = some fn) : (c, fn) ∈ m := by
  induction m with
  | nil => simp [lookupAssoc] at h
  | cons hd tl ih =>
    obtain ⟨k', v'⟩ := hd
    by_cases hk : k' = c
    · subst hk
      simp [lookupAssoc, List.find?] at h
      simp [h]
    · simp only [lookupAssoc, List.find?] at h ih
      rw [show ((k', v').1 == c) = false by simp [hk]] at h
      exact List.mem_cons_of_mem _ (ih h)

/-- With duplicate-free field names, lookup by a member's name finds exactly
that member. -/
theorem find?_name_of_nodup (l : List (FieldDecl × GoValue))
    (h : (l.map (fun p => p.1.name)).Nodup) (p : FieldDecl × GoValue) (hp : p ∈ l) :
    l.find? (fun q => q.1.name == p.1.name) = some p := by
  induction l with
  | nil => cases hp
  | cons hd tl ih =>
    rcases List.mem_cons.mp hp with hh | ht
    · subst hh; simp [List.find?]
    · have hne : hd.1.name ≠ p.1.name := by
        intro he
        have : p.1.name ∈ tl.map (fun q => q.1.name) := List.mem_map_of_mem _ ht
        rw [List.map_cons] at h
        exact (List.nodup_cons.mp h).1 (he ▸ this)
      have htl : (tl.map (fun q => q.1.name)).Nodup := by
        rw [List.map_cons] at h
        exact (List.nodup_cons.mp h).2
      simp only [List.find?]
      rw [show (hd.1.name == p.1.name) = false by simp [hne]]
      exact ih htl ht

/-- A member pair is found under some name, in particular lookup by its own
name succeeds. -/
theorem lookupField_isSome_of_mem (r : RecordObj) (p : FieldDecl × GoValue)
    (hp : p ∈ r.fields) : (r.lookupField p.1.name).isSome = true := by
  rcases h : r.fields.find? (fun q => q.1.name == p.1.name) with _ | q
  · rw [List.find?_eq_none] at h
    exact absurd (by simp : (p.1.name == p.1.name) = true) (by simpa using h p hp)
  · simp [RecordObj.lookupField, h]

/-- `setFieldValue` does not change the field declarations of a record. -/
theorem setFieldValue_decls (r : RecordObj) (n : String) (v : GoValue) :
    (r.setFieldValue n v).fields.map (fun p => p.1) = r.fields.map (fun p => p.1) := by
  simp only [RecordObj.setFieldValue, List.map_map]
  refine List.map_congr_left (fun p _ => ?_)
  simp only [Function.comp]
  split <;> rfl

/-- The source type check and the amended claim's type check agree. -/
theorem fieldTypeOK_eq_spec (e f : GoType) : fieldTypeOK e f = fieldTypeOKSpec e f := by
  unfold fieldTypeOK fieldTypeOKSpec
  by_cases h1 : (e.kind == GoKind.sliceK && (e.typeElem.map GoType.kind) == some GoKind.strK) = true
  · simp [h1]
  · rw [Bool.not_eq_true] at h1
    by_cases h2 : (e.kind == GoKind.strK && f.kind == GoKind.strK) = true
    · simp [h1, h2]
    · rw [Bool.not_eq_true] at h2
      by_cases h3 : (e.kind == GoKind.ptrK && (e.typeElem.map GoType.kind) == some GoKind.strK
          && f.kind == GoKind.ptrK && (f.typeElem.map GoType.kind) == some GoKind.strK) = true
      · simp [h1, h2, h3]
      · rw [Bool.not_eq_true] at h3
        simp [h1, h2, h3]

/-- Domain of the map built by the `NewInfo` loop: exactly the non-empty
tags of the scanned declarations, plus whatever the accumulator held. -/
theorem newInfoFields_ok_dom (table : TableSchema) (objType : String) :
    ∀ (ds : List FieldDecl) (acc m : List (String × String)),
      newInfoFields table objType ds acc = .ok m → ∀ c,
        ((lookupAssoc m c).isSome = true ↔
          c ∈ taggedTags ds ∨ (lookupAssoc acc c).isSome = true) := by
  intro ds
  induction ds with
  | nil =>
    intro acc m h c
    simp only [newInfoFields] at h
    cases h
    simp [taggedTags]
  | cons d rest ih =>
    intro acc m h c
    by_cases ht : d.tag = ""
    · rw [show newInfoFields table objType (d :: rest) acc
          = newInfoFields table objType rest acc by simp [newInfoFields, ht]] at h
      rw [ih acc m h c]
      simp [taggedTags, ht]
    · simp only [newInfoFields] at h
      rw [show (d.tag == "") = false by simp [ht]] at h
      simp only [Bool.false_eq_true, if_false] at h
      split at h
      · cases h
      · rename_i cs hcol
        split at h
        · rw [ih _ m h c, lookupAssoc_isSome_mapInsert]
          have htags : taggedTags (d :: rest) = d.tag :: taggedTags rest := by
            simp [taggedTags, List.filterMap_cons, ht]
          rw [htags]
          constructor
          · rintro (h1 | h1 | h1)
            · exact Or.inl (List.mem_cons_of_mem _ h1)
            · exact Or.inl (h1 ▸ List.mem_cons_self _ _)
            · exact Or.inr h1
          · rintro (h1 | h1)
            · rcases List.mem_cons.mp h1 with h1 | h1
              · exact Or.inr (Or.inl h1)
              · exact Or.inl h1
            · exact Or.inr (Or.inr h1)
        · cases h

/-- Provenance of the map entries built by the `NewInfo` loop: every binding
comes from a tagged declaration that passed the schema checks, or from the
accumulator. -/
theorem newInfoFields_ok_mem (table : TableSchema) (objType : String) :
    ∀ (ds : List FieldDecl) (acc m : List (String × String)),
      newInfoFields table objType ds acc = .ok m → ∀ c fn,
        lookupAssoc m c = some fn →
          (∃ d ∈ ds, d.tag = c ∧ d.name = fn ∧ c ≠ "" ∧
            ∃ cs, table.Column c = some cs ∧ fieldTypeOK (NativeType cs) d.type = true)
          ∨ lookupAssoc acc c = some fn := by
  intro ds
  induction ds with
  | nil =>
    intro acc m h c fn hl
    simp only [newInfoFields] at h
    cases h
    exact Or.inr hl
  | cons d rest ih =>
    intro acc m h c fn hl
    by_cases ht : d.tag = ""
    · rw [show newInfoFields table objType (d :: rest) acc
          = newInfoFields table objType rest acc by simp [newInfoFields, ht]] at h
      rcases ih acc m h c fn hl with ⟨d', hd', rest'⟩ | h2
      · exact Or.inl ⟨d', List.mem_cons_of_mem _ hd', rest'⟩
      · exact Or.inr h2
    · simp only [newInfoFields] at h
      rw [show (d.tag == "") = false by simp [ht]] at h
      simp only [Bool.false_eq_true, if_false] at h
      split at h
      · cases h
      · rename_i cs hcol
        split at h
        · rename_i hok
          rcases ih _ m h c fn hl with ⟨d', hd', rest'⟩ | h2
          · exact Or.inl ⟨d', List.mem_cons_of_mem _ hd', rest'⟩
          · rw [lookupAssoc_mapInsert] at h2
            by_cases hc : c = d.tag
            · subst hc
              simp only [if_pos rfl] at h2
              refine Or.inl ⟨d, List.mem_cons_self _ _, rfl, ?_, ht, cs, hcol, hok⟩
              exact Option.some.inj h2
            · rw [if_neg hc] at h2
              exact Or.inr h2
        · cases h

/-- Success of the `NewInfo` loop depends only on the tagged declarations
passing the schema checks, never on the accumulator. -/
theorem newInfoFields_isOk_iff (table : TableSchema) (objType : String) :
    ∀ (ds : List FieldDecl) (acc : List (String × String)),
      exceptIsOk (newInfoFields table objType ds acc) = true ↔
        ∀ d ∈ ds, d.tag ≠ "" →
          ∃ cs, table.Column d.tag = some cs ∧ fieldTypeOK (NativeType cs) d.type = true := by
  intro ds
  induction ds with
  | nil =>
    intro acc
    simp [newInfoFields, exceptIsOk]
  | cons d rest ih =>
    intro acc
    by_cases ht : d.tag = ""
    · rw [show newInfoFields table objType (d :: rest) acc
          = newInfoFields table objType rest acc by simp [newInfoFields, ht]]
      rw [ih acc]
      constructor
      · intro h d' hd' ht'
        rcases List.mem_cons.mp hd' with hh | hh
        · exact absurd (hh ▸ ht) ht'
        · exact h d' hh ht'
      · intro h d' hd' ht'
        exact h d' (List.mem_cons_of_mem _ hd') ht'
    · simp only [newInfoFields]
      rw [show (d.tag == "") = false by simp [ht]]
      simp only [Bool.false_eq_true, if_false]
      split
      · rename_i hcol
        simp only [exceptIsOk]
        constructor
        · intro h; cases h
        · intro h
          rcases h d (List.mem_cons_self _ _) ht with ⟨cs, hcs, _⟩
          rw [hcol] at hcs; cases hcs
      · rename_i cs hcol
        split
        · rename_i hok
          rw [ih _]
          constructor
          · intro h d' hd' ht'
            rcases List.mem_cons.mp hd' with hh | hh
            · subst hh; exact ⟨cs, hcol, hok⟩
            · exact h d' hh ht'
          · intro h d' hd' ht'
            exact h d' (List.mem_cons_of_mem _ hd') ht'
        · rename_i hok
          simp only [exceptIsOk]
          constructor
          · intro h; cases h
          · intro h
            rcases h d (List.mem_cons_self _ _) ht with ⟨cs', hcs', hok'⟩
            rw [hcol] at hcs'
            cases hcs'
            exact absurd hok' hok

/-- Skipping untagged declarations up front does not change the `NewInfo`
loop. -/
theorem newInfoFields_filter_untagged (table : TableSchema) (objType : String) :
    ∀ (ds : List FieldDecl) (acc : List (String × String)),
      newInfoFields table objType (ds.filter (fun d => !(d.tag == ""))) acc
        = newInfoFields table objType ds acc := by
  intro ds
  induction ds with
  | nil => intro acc; rfl
  | cons d rest ih =>
    intro acc
    by_cases ht : d.tag = ""
    · rw [show (d :: rest).filter (fun d => !(d.tag == "")) = rest.filter (fun d => !(d.tag == ""))
          by simp [List.filter_cons, ht]]
      rw [ih acc]
      simp [newInfoFields, ht]
    · rw [show (d :: rest).filter (fun d => !(d.tag == ""))
          = d :: rest.filter (fun d => !(d.tag == "")) by simp [List.filter_cons, ht]]
      simp only [newInfoFields]
      rw [show (d.tag == "") = false by simp [ht]]
      simp only [Bool.false_eq_true, if_false]
      split
      · rfl
      · split
        · exact ih _
        · rfl

theorem NewInfo_ok_parts (table : TableSchema) (r : RecordObj) (info : Info)
    (h : NewInfo table (.ptrToStruct r) = .ok info) :
    info.obj = r ∧ info.table = table ∧
      newInfoFields table r.typeName (r.fields.map (fun p => p.1)) [] = .ok info.fields := by
  simp only [NewInfo] at h
  split at h
  · cases h
  · rename_i m hm
    cases h
    exact ⟨rfl, rfl, hm⟩

theorem taggedColumns_eq_taggedTags (r : RecordObj) :
    r.taggedColumns = taggedTags (r.fields.map (fun p => p.1)) := by
  simp only [RecordObj.taggedColumns, taggedTags, List.filterMap_map]
  rfl

/-- The domain of a constructed `Info`: exactly the tagged columns of the
record. -/
theorem info_dom (table : TableSchema) (r : RecordObj) (info : Info)
    (h : NewInfo table (.ptrToStruct r) = .ok info) (c : String) :
    (lookupAssoc info.fields c).isSome = true ↔ c ∈ r.taggedColumns := by
  obtain ⟨-, -, hm⟩ := NewInfo_ok_parts table r info h
  rw [newInfoFields_ok_dom table r.typeName _ [] info.fields hm c, taggedColumns_eq_taggedTags]
  simp [lookupAssoc_nil]

/-- Provenance of the bindings of a constructed `Info`. -/
theorem info_mem (table : TableSchema) (r : RecordObj) (info : Info)
    (h : NewInfo table (.ptrToStruct r) = .ok info) (c fn : String)
    (hl : lookupAssoc info.fields c = some fn) :
    ∃ p ∈ r.fields, p.1.tag = c ∧ p.1.name = fn ∧ c ≠ "" ∧
      ∃ cs, table.Column c = some cs ∧ fieldTypeOK (NativeType cs) p.1.type = true := by
  obtain ⟨-, -, hm⟩ := NewInfo_ok_parts table r info h
  rcases newInfoFields_ok_mem table r.typeName _ [] info.fields hm c fn hl with
    ⟨d, hd, htag, hname, hne, hschema⟩ | hacc
  · rcases List.mem_map.mp hd with ⟨p, hp, hpd⟩
    exact ⟨p, hp, hpd ▸ htag, hpd ▸ hname, hne, hpd ▸ hschema⟩
  · simp [lookupAssoc_nil] at hacc

theorem mem_mapInsert (k v : String) (q : String × String) :
    ∀ (m : List (String × String)), q ∈ mapInsert m k v → q = (k, v) ∨ q ∈ m := by
  intro m
  induction m with
  | nil =>
    intro h
    simpa [mapInsert] using h
  | cons hd tl ih =>
    obtain ⟨k', v'⟩ := hd
    intro h
    by_cases hk : k' = k
    · rw [show mapInsert ((k', v') :: tl) k v = (k, v) :: tl by simp [mapInsert, hk]] at h
      rcases List.mem_cons.mp h with h | h
      · exact Or.inl h
      · exact Or.inr (List.mem_cons_of_mem _ h)
    · rw [show mapInsert ((k', v') :: tl) k v = (k', v') :: mapInsert tl k v by
          simp [mapInsert, hk]] at h
      rcases List.mem_cons.mp h with h | h
      · exact Or.inr (h ▸ List.mem_cons_self _ _)
      · rcases ih h with h' | h'
        · exact Or.inl h'
        · exact Or.inr (List.mem_cons_of_mem _ h')

/-- Every pair of the map built by the `NewInfo` loop names a field of the
scanned declarations (or of the accumulator). -/
theorem newInfoFields_ok_mem_pairs (table : TableSchema) (objType : String) :
    ∀ (ds : List FieldDecl) (acc m : List (String × String)),
      newInfoFields table objType ds acc = .ok m → ∀ q ∈ m,
        (∃ d ∈ ds, d.name = q.2) ∨ q ∈ acc := by
  intro ds
  induction ds with
  | nil =>
    intro acc m h q hq
    simp only [newInfoFields] at h
    cases h
    exact Or.inr hq
  | cons d rest ih =>
    intro acc m h q hq
    by_cases ht : d.tag = ""
    · rw [show newInfoFields table objType (d :: rest) acc
          = newInfoFields table objType rest acc by simp [newInfoFields, ht]] at h
      rcases ih acc m h q hq with ⟨d', hd', he⟩ | hacc
      · exact Or.inl ⟨d', List.mem_cons_of_mem _ hd', he⟩
      · exact Or.inr hacc
    · simp only [newInfoFields] at h
      rw [show (d.tag == "") = false by simp [ht]] at h
      simp only [Bool.false_eq_true, if_false] at h
      split at h
      · cases h
      · split at h
        · rcases ih _ m h q hq with ⟨d', hd', he⟩ | hacc
          · exact Or.inl ⟨d', List.mem_cons_of_mem _ hd', he⟩
          · rcases mem_mapInsert _ _ _ _ hacc with he | he
            · exact Or.inl ⟨d, List.mem_cons_self _ _, by rw [he]⟩
            · exact Or.inr he
        · cases h

/-- A constructed `Info` is well formed: every binding names an actual field
of the record. -/
theorem NewInfo_wfFields (table : TableSchema) (r : RecordObj) (info : Info)
    (h : NewInfo table (.ptrToStruct r) = .ok info) : info.wfFields := by
  obtain ⟨hobj, -, hm⟩ := NewInfo_ok_parts table r info h
  intro q hq
  rcases newInfoFields_ok_mem_pairs table r.typeName _ [] info.fields hm q hq with
    ⟨d, hd, hname⟩ | hacc
  · rcases List.mem_map.mp hd with ⟨p, hp, hpd⟩
    rw [hobj, ← hname, ← hpd]
    exact lookupField_isSome_of_mem r p hp
  · cases hacc

/-- Under well-formedness, `hasColumn` guarantees a successful
`FieldByColumn`. -/
theorem fieldByColumn_ok_of_hasColumn (i : Info) (hwf : i.wfFields) (c : String)
    (hc : i.hasColumn c = true) : ∃ v, i.FieldByColumn c = .ok v := by
  rcases hl : lookupAssoc i.fields c with _ | fn
  · rw [Info.hasColumn, hl] at hc; cases hc
  · have hmem := lookupAssoc_mem i.fields c fn hl
    have hsome := hwf (c, fn) hmem
    rcases hf : i.obj.lookupField fn with _ | p
    · rw [hf] at hsome; cases hsome
    · exact ⟨p.2, by simp [Info.FieldByColumn, hl, hf]⟩

/-- Under well-formedness, the inner loop of `getValidIndexes` computes
exactly whether every column of the group has a non-default value, and it
never propagates an error. -/
theorem checkIndexCols_eq (i : Info) (hwf : i.wfFields) :
    ∀ idx : List String, checkIndexCols i idx = .ok (idx.all (colHasNonDefault i)) := by
  intro idx
  induction idx with
  | nil => rfl
  | cons col rest ih =>
    simp only [checkIndexCols, List.all_cons]
    rcases hc : i.hasColumn col with _ | _
    · simp [colHasNonDefault, hc]
    · simp only [hc, Bool.not_true, Bool.false_eq_true, if_false]
      rcases hcol : i.table.Column col with _ | cs
      · simp [colHasNonDefault, hc, hcol]
      · rcases fieldByColumn_ok_of_hasColumn i hwf col hc with ⟨v, hv⟩
        rw [hv]
        rcases hd : IsDefaultValue cs v with _ | _
        · simp only [IsValidReflect, Bool.not_true, Bool.false_or, hd, Bool.false_eq_true,
            if_false]
          rw [ih]
          have : colHasNonDefault i col = true := by
            simp [colHasNonDefault, hc, hcol, hv, IsValidReflect, hd]
          rw [this, Bool.true_and]
        · have : colHasNonDefault i col = false := by
            simp [colHasNonDefault, hc, hcol, hv, IsValidReflect, hd]
          simp [IsValidReflect, hd, this]

/-- Under well-formedness, the outer loop of `getValidIndexes` is a filter
over the candidate groups, in order. -/
theorem validIndexesLoop_eq (i : Info) (hwf : i.wfFields) :
    ∀ l : List (List String),
      validIndexesLoop i l = .ok (l.filter (fun idx => idx.all (colHasNonDefault i))) := by
  intro l
  induction l with
  | nil => rfl
  | cons idx rest ih =>
    simp only [validIndexesLoop, checkIndexCols_eq i hwf idx, List.filter_cons]
    rcases ha : idx.all (colHasNonDefault i) with _ | _
    · simp [ih, ha]
    · simp [ih, ha]

/-- Every outcome of `SetField` either succeeds or leaves the record as it
was: the single `Set` call of the source is its last action. -/
theorem setField_ok_or_unchanged (i : Info) (c : String) (v : GoValue) :
    (i.SetField c v).2 = i ∨ (i.SetField c v).1 = .ok () := by
  unfold Info.SetField setFieldConvert
  repeat' first
    | exact Or.inl rfl
    | exact Or.inr rfl
    | split

/-- The second component of `SetField` is the record unchanged or the record
with one named field replaced. -/
theorem setField_snd_shape (i : Info) (c : String) (v : GoValue) :
    (i.SetField c v).2 = i ∨
      ∃ fn nv, (i.SetField c v).2 = { i with obj := i.obj.setFieldValue fn nv } := by
  unfold Info.SetField setFieldConvert
  repeat' first
    | exact Or.inl rfl
    | exact Or.inr ⟨_, _, rfl⟩
    | split

theorem kind_ptr_exists (ft : GoType) (h : ft.kind = GoKind.ptrK) :
    ∃ e, ft = GoType.ptr e := by
  cases ft <;> simp_all [GoType.kind]

theorem kind_slice_exists (ft : GoType) (h : ft.kind = GoKind.sliceK) :
    ∃ e, ft = GoType.slice e := by
  cases ft <;> simp_all [GoType.kind]

/-- For a field type that is neither a pointer nor a slice, the conversion
pipeline is exactly the convertibility test. -/
theorem setFieldConvert_other (i : Info) (c fn : String) (ft : GoType) (v : GoValue)
    (hkp : ft.kind ≠ GoKind.ptrK) (hks : ft.kind ≠ GoKind.sliceK) :
    setFieldConvert i c fn ft v =
      (if convertibleTo v.typeOf ft then
        (.ok (), { i with obj := i.obj.setFieldValue fn (convertValue v ft) })
      else (.error (.assign c fn), i)) := by
  have h2 : (ft.kind == GoKind.sliceK) = false := by simp [hks]
  have h3 : (ft.kind == GoKind.ptrK) = false := by simp [hkp]
  have hstep : setFieldStep i c ft v = .ok v := by
    unfold setFieldStep
    rw [h3]
    simp
  unfold setFieldConvert
  split
  · rename_i e1 heq
    rw [hstep] at heq
    cases heq
  · rename_i v1 heq
    rw [hstep] at heq
    injection heq with hv
    subst hv
    by_cases hc : convertibleTo v.typeOf ft = true
    · simp [hc]
    · rw [Bool.not_eq_true] at hc
      simp [hc, h2]

/-- For a field type that is neither a pointer nor a slice, the claim's
priority chain is exactly the convertibility test too. -/
theorem claim_chain_other (i : Info) (c fn : String) (ft : GoType) (v : GoValue)
    (hkp : ft.kind ≠ GoKind.ptrK) (hks : ft.kind ≠ GoKind.sliceK)
    (hna : assignableTo ft v.typeOf = false) :
    (if v.typeOf.kind.isScalar && ft.kind.isScalar && convertibleTo v.typeOf ft then
      ((.ok (), { i with obj := i.obj.setFieldValue fn (convertValue v ft) }) :
        Except MapperError Unit × Info)
    else if ft.kind == GoKind.sliceK then claimSliceCase i c fn ft v
    else if ft.kind == GoKind.ptrK then claimPtrCase i c fn ft v
    else (.error (.assign c fn), i)) =
      (if convertibleTo v.typeOf ft then
        (.ok (), { i with obj := i.obj.setFieldValue fn (convertValue v ft) })
      else (.error (.assign c fn), i)) := by
  have hne : ft ≠ v.typeOf := by
    intro he
    rw [he] at hna
    simp [assignableTo] at hna
  have h2 : (ft.kind == GoKind.sliceK) = false := by simp [hks]
  have h3 : (ft.kind == GoKind.ptrK) = false := by simp [hkp]
  by_cases hc : convertibleTo v.typeOf ft = true
  · have hsc : v.typeOf.kind.isScalar = true ∧ ft.kind.isScalar = true := by
      rcases convertibleTo_shape _ _ hc with h | h | ⟨a, b, _, hb⟩
      · exact absurd h.symm hne
      · exact h
      · exact absurd (by rw [hb]; rfl) hkp
    simp [hc, hsc.1, hsc.2]
  · rw [Bool.not_eq_true] at hc
    simp [hc, h2, h3]

/-- For a pointer field the conversion pipeline is the claim's optional
case: the dead first branch of the pre-step never fires, so the value is
routed through `OvsToNative` and then converted. -/
theorem setFieldConvert_ptr_eq (i : Info) (c fn : String) (e : GoType) (v : GoValue) :
    setFieldConvert i c fn (GoType.ptr e) v = claimPtrCase i c fn (GoType.ptr e) v := by
  unfold setFieldConvert setFieldStep claimPtrCase
  rw [show ((GoType.ptr e).kind == GoKind.ptrK) = true from rfl]
  rw [setField_deref_dead (GoType.ptr e) rfl]
  simp only [Bool.and_false, Bool.false_eq_true, if_false, if_true]
  cases hcol : i.table.Column c with
  | none => rfl
  | some cs =>
    dsimp only
    rcases hO : OvsToNative cs v with e1 | v1
    · rfl
    · by_cases hc : convertibleTo v1.typeOf (GoType.ptr e) = true
      · simp [hc]
      · rw [Bool.not_eq_true] at hc
        simp [hc, GoType.kind]

/-- For a slice field the conversion pipeline is the claim's sequence case:
no distinct type converts into a slice type, so the convertibility test
always falls through to the element-wise branch. -/
theorem setFieldConvert_slice_eq (i : Info) (c fn : String) (e : GoType) (v : GoValue)
    (hna : assignableTo (GoType.slice e) v.typeOf = false) :
    setFieldConvert i c fn (GoType.slice e) v = claimSliceCase i c fn (GoType.slice e) v := by
  have hstep : setFieldStep i c (GoType.slice e) v = .ok v := by
    unfold setFieldStep
    rw [show ((GoType.slice e).kind == GoKind.ptrK) = false from rfl]
    simp
  have hcv : convertibleTo v.typeOf (GoType.slice e) = false := by
    rcases h : convertibleTo v.typeOf (GoType.slice e) with _ | _
    · rfl
    · have := convertibleTo_slice_eq _ _ h
      rw [assignableTo, this] at hna
      simp at hna
  unfold setFieldConvert claimSliceCase
  split
  · rename_i e1 heq
    rw [hstep] at heq
    cases heq
  · rename_i v1 heq
    rw [hstep] at heq
    injection heq with hv
    subst hv
    rw [hcv]
    simp only [Bool.false_eq_true, if_false]
    rw [show ((GoType.slice e).kind == GoKind.sliceK) = true from rfl]
    simp only [if_true]
    cases v
    case slice ve vs =>
      by_cases h2 : convertibleTo ve e = true
      · cases vs with
        | nil => simp [GoValue.typeOf, GoType.typeElem, goLen, h2]
        | cons hd tl => simp [GoValue.typeOf, GoType.typeElem, goLen, h2]
      · rw [Bool.not_eq_true] at h2
        simp [GoValue.typeOf, GoType.typeElem, h2]
    case ptr a pv =>
      by_cases h2 : convertibleTo a e = true
      · simp [GoValue.typeOf, GoType.typeElem, goLen, h2]
      · rw [Bool.not_eq_true] at h2
        simp [GoValue.typeOf, GoType.typeElem, h2]
    case mapV k w es =>
      by_cases h2 : convertibleTo w e = true
      · cases es with
        | nil => simp [GoValue.typeOf, GoType.typeElem, goLen, h2]
        | cons hd tl => simp [GoValue.typeOf, GoType.typeElem, goLen, h2]
      · rw [Bool.not_eq_true] at h2
        simp [GoValue.typeOf, GoType.typeElem, h2]
    all_goals simp [GoValue.typeOf, GoType.typeElem]

/-- The conversion pipeline of the source equals the claim's priority chain
whenever the direct-assignability test has failed. -/
theorem setFieldConvert_eq_claim (i : Info) (c fn : String) (ft : GoType) (v : GoValue)
    (hna : assignableTo ft v.typeOf = false) :
    setFieldConvert i c fn ft v =
      (if v.typeOf.kind.isScalar && ft.kind.isScalar && convertibleTo v.typeOf ft then
        ((.ok (), { i with obj := i.obj.setFieldValue fn (convertValue v ft) }) :
          Except MapperError Unit × Info)
      else if ft.kind == GoKind.sliceK then claimSliceCase i c fn ft v
      else if ft.kind == GoKind.ptrK then claimPtrCase i c fn ft v
      else (.error (.assign c fn), i)) := by
  by_cases hkp : ft.kind = GoKind.ptrK
  · obtain ⟨e, rfl⟩ := kind_ptr_exists ft hkp
    rw [setFieldConvert_ptr_eq]
    rw [show ((GoType.ptr e).kind.isScalar) = false from rfl]
    rw [show ((GoType.ptr e).kind == GoKind.sliceK) = false from rfl]
    rw [show ((GoType.ptr e).kind == GoKind.ptrK) = true from rfl]
    simp
  · by_cases hks : ft.kind = GoKind.sliceK
    · obtain ⟨e, rfl⟩ := kind_slice_exists ft hks
      rw [setFieldConvert_slice_eq i c fn e v hna]
      rw [show ((GoType.slice e).kind.isScalar) = false from rfl]
      rw [show ((GoType.slice e).kind == GoKind.sliceK) = true from rfl]
      simp
    · rw [setFieldConvert_other i c fn ft v hkp hks]
      exact (claim_chain_other i c fn ft v hkp hks hna).symm

/-- Hitting the field at position `j`: the loop of `ColumnByPtr` resolves
the offset to that field's tag (or fails when the tag is not mapped). -/
theorem columnByPtrLoop_get (i : Info) :
    ∀ (decls : List FieldDecl) (k j : Nat) (fd : FieldDecl), decls.get? j = some fd →
      columnByPtrLoop i decls k (k + j) =
        (if (lookupAssoc i.fields fd.tag).isSome then .ok fd.tag else .error .fieldNoOrm) := by
  intro decls
  induction decls with
  | nil =>
    intro k j fd h
    simp at h
  | cons d rest ih =>
    intro k j fd h
    cases j with
    | zero =>
      rw [List.get?_cons_zero] at h
      injection h with h
      subst h
      simp only [columnByPtrLoop, Nat.add_zero]
      rw [show (k == k) = true by simp]
      simp
    | succ j' =>
      rw [List.get?_cons_succ] at h
      have hne : (k == k + (j' + 1)) = false := by
        simp only [beq_eq_false_iff_ne, ne_eq]
        omega
      simp only [columnByPtrLoop, hne, Bool.false_eq_true, if_false]
      rw [show k + (j' + 1) = (k + 1) + j' by omega]
      exact ih (k + 1) j' fd h

/-- Running past the end: an offset beyond every field position fails with
the no-corresponding-field error. -/
theorem columnByPtrLoop_out (i : Info) :
    ∀ (decls : List FieldDecl) (k off : Nat), k + decls.length ≤ off →
      columnByPtrLoop i decls k off = .error .ptrNoField := by
  intro decls
  induction decls with
  | nil => intro k off _; rfl
  | cons d rest ih =>
    intro k off hle
    have hne : (k == off) = false := by
      simp only [beq_eq_false_iff_ne, ne_eq]
      simp only [List.length_cons] at hle
      omega
    simp only [columnByPtrLoop, hne, Bool.false_eq_true, if_false]
    refine ih (k + 1) off ?_
    simp only [List.length_cons] at hle
    omega

/-- The empty string is never a tagged column. -/
theorem empty_not_mem_taggedColumns (r : RecordObj) : "" ∉ r.taggedColumns := by
  intro h
  simp only [RecordObj.taggedColumns, List.mem_filterMap] at h
  obtain ⟨p, -, hp⟩ := h
  by_cases ht : p.1.tag = ""
  · rw [show (p.1.tag == "") = true by simp [ht]] at hp
    cases hp
  · rw [show (p.1.tag == "") = false by simp [ht]] at hp
    exact ht (Option.some.inj hp)

/-- The tag of any tagged field is a tagged column. -/
theorem tag_mem_taggedColumns (r : RecordObj) (p : FieldDecl × GoValue)
    (hp : p ∈ r.fields) (ht : p.1.tag ≠ "") : p.1.tag ∈ r.taggedColumns := by
  simp only [RecordObj.taggedColumns, List.mem_filterMap]
  refine ⟨p, hp, ?_⟩
  rw [show (p.1.tag == "") = false by simp [ht]]
  rfl

/-! ## Claim theorems -/

/-- Claim C1, counterexample: for the column `color`, whose native type is a
sequence of strings (a set of enums), `NewInfo` accepts a record whose tagged
field has type `int` — a field type that is not a sequence of string-typed
scalars and that the claim says is rejected with a `MapperFieldType` error at
construction.  The source never examines the field type in that branch. -/
theorem newInfo_accepts_int_field_for_enum_set_column :
    exceptIsOk (NewInfo table1 (.ptrToStruct recIntColor)) = true ∧
    (table1.Column "color").map NativeType = some (GoType.slice GoType.str) ∧
    GoType.int.kind ≠ GoKind.sliceK :=
  ⟨rfl, rfl, by decide⟩

/-- Claim C1 (amended): `NewInfo` returns an `Info` exactly when every tagged
field passes the schema type check, which permits: an exact match between the
field type and the column's native type; for a column of native string kind,
any string-kind scalar field; for a column whose native type is a sequence of
strings, any field type whatsoever (the field type is not examined); for a
column whose native type is an optional string, any optional string-kind
field.  Any other field type yields a `MapperFieldType` error and no
`Info`. -/
theorem newInfo_typecheck_characterization (table : TableSchema) (r : RecordObj) :
    exceptIsOk (NewInfo table (.ptrToStruct r)) = true ↔
      ∀ d ∈ r.fields.map (fun p => p.1), d.tag ≠ "" →
        ∃ cs, table.Column d.tag = some cs ∧ fieldTypeOKSpec (NativeType cs) d.type = true := by
  have hsame : exceptIsOk (NewInfo table (.ptrToStruct r))
      = exceptIsOk (newInfoFields table r.typeName (r.fields.map (fun p => p.1)) []) := by
    simp only [NewInfo]
    cases hE : newInfoFields table r.typeName (r.fields.map (fun p => p.1)) [] with
    | error e => rfl
    | ok m => rfl
  rw [hsame, newInfoFields_isOk_iff]
  constructor <;> intro h d hd ht
  · obtain ⟨cs, h1, h2⟩ := h d hd ht
    exact ⟨cs, h1, (fieldTypeOK_eq_spec _ _) ▸ h2⟩
  · obtain ⟨cs, h1, h2⟩ := h d hd ht
    exact ⟨cs, h1, (fieldTypeOK_eq_spec _ _).symm ▸ h2⟩

/-- Witness for the amended claim C1 at a concrete record. -/
theorem newInfo_typecheck_characterization_witness :
    ∃ cs, table1.Column "color" = some cs ∧
      fieldTypeOKSpec (NativeType cs) (GoType.slice (GoType.namedStr "BridgeColor")) = true :=
  (newInfo_typecheck_characterization table1 rec1).mp rfl
    ⟨"Color", "color", GoType.slice (GoType.namedStr "BridgeColor")⟩
    (by decide) (by decide)

/-- Claim C2, counterexample: assigning a scalar (`int 5`) to the sequence
field mapped to `color` does not return a `MapperAssign` error as the claim
states; the source panics inside `reflect.Type.Elem` instead. -/
theorem setField_panics_on_scalar_for_sequence_field :
    (info1.SetField "color" (GoValue.int 5)).1
        = .error (.goPanic "reflect: Elem of invalid type") ∧
    (MapperError.goPanic "reflect: Elem of invalid type").isMapperAssign = false ∧
    exceptIsOk (info1.SetField "color" (GoValue.int 5)).1 = false :=
  ⟨rfl, rfl, rfl⟩

/-- The success path of the slice branch that exists because
`reflect.Value.Len` accepts maps: an empty map value whose element type
converts to the field's element type is assigned as the zero sequence (the
conversion loop never runs), while a non-empty map panics on the index
read. -/
theorem setField_empty_map_into_sequence_field :
    (info1.SetField "color" (GoValue.mapV GoType.str GoType.str [])).1 = Except.ok () ∧
    ((info1.SetField "color" (GoValue.mapV GoType.str GoType.str [])).2).obj.lookupField "Color"
      = some (⟨"Color", "color", GoType.slice (GoType.namedStr "BridgeColor")⟩,
          GoValue.slice (GoType.namedStr "BridgeColor") []) ∧
    (info1.SetField "color" (GoValue.mapV GoType.str GoType.str
        [(GoValue.str "a", GoValue.str "b")])).1
      = Except.error (MapperError.goPanic "reflect: Value.Index on map Value") :=
  ⟨rfl, rfl, rfl⟩

/-- Claim C2 (amended): `SetField` assigns with conversions tried in the
claim's priority order — (1) direct assignability, (2) scalar-to-scalar
convertibility (the enum case), (3) element-wise conversion for sequence
fields, (4) unwrapping/wrapping for optional (pointer) fields — and
otherwise returns a `MapperAssign` error, except for a sequence field with a
non-sequence value: there the call panics when the value's type has no
element type; when it does and it is convertible, an empty map value is
accepted and assigns the zero sequence, a non-empty map value panics on the
index read, and a pointer value panics on the length read. -/
theorem setField_matches_claimed_priorities (i : Info) (c : String) (v : GoValue) :
    i.SetField c v = setFieldClaim i c v := by
  unfold Info.SetField setFieldClaim
  cases hl : lookupAssoc i.fields c with
  | none => rfl
  | some fn =>
    dsimp only
    cases hf : i.obj.lookupField fn with
    | none => rfl
    | some p =>
      dsimp only
      rw [assignableTo_comm p.1.type v.typeOf]
      by_cases ha : assignableTo v.typeOf p.1.type = true
      · simp [ha]
      · rw [Bool.not_eq_true] at ha
        simp only [ha, Bool.false_eq_true, if_false]
        exact setFieldConvert_eq_claim i c fn p.1.type v (by rw [assignableTo_comm]; exact ha)

/-- The concrete `Info` fixture is well formed. -/
theorem info1_wfFields : info1.wfFields := by
  intro p hp
  fin_cases hp <;> rfl

/-- Claim C3: `getValidIndexes` returns exactly the index groups all of
whose columns have a non-default value on the record, the UUID pseudo-index
considered first, in order: `_uuid` first, then the schema-declared index
groups in declared order. -/
theorem getValidIndexes_filters_nonDefault (i : Info) (hwf : i.wfFields) :
    i.getValidIndexes =
      .ok (([["_uuid"]] ++ i.table.indexes).filter (fun idx => idx.all (colHasNonDefault i))) :=
  validIndexesLoop_eq i hwf _

/-- Witness for claim C3 at a concrete record: only the `name` group is
valid (`_uuid` and `alias` hold default values). -/
theorem getValidIndexes_filters_nonDefault_witness :
    info1.getValidIndexes = Except.ok [["name"]] := by
  rw [getValidIndexes_filters_nonDefault info1 info1_wfFields]
  rfl

/-- Claim C5: whenever `SetField` returns an error (or panics), the record
is unchanged — the single mutation of the source is its last action. -/
theorem setField_error_leaves_record_unchanged (i : Info) (c : String) (v : GoValue)
    (e : MapperError) (h : (i.SetField c v).1 = .error e) : (i.SetField c v).2 = i := by
  rcases setField_ok_or_unchanged i c v with h2 | h2
  · exact h2
  · rw [h2] at h
    cases h

/-- Witness for claim C5: a failing assignment (a boolean into the string
field `name`) leaves the record unchanged. -/
theorem setField_error_leaves_record_unchanged_witness :
    (info1.SetField "name" (GoValue.bool true)).2 = info1 :=
  setField_error_leaves_record_unchanged info1 "name" (GoValue.bool true)
    (MapperError.assign "name" "Name") rfl

/-- Claim C9: `NewInfo` accepts only a pointer to a struct; a non-pointer
argument, and a pointer whose target is not a struct, both produce a
wrong-type error and no `Info`. -/
theorem newInfo_requires_pointer_to_struct (table : TableSchema) (t : GoType) :
    NewInfo table (.nonPtr t) = .error (.wrongType "NewMapperInfo" "pointer to a struct") ∧
    NewInfo table (.ptrToNonStruct t) = .error (.wrongType "NewMapperInfo" "pointer to a struct") :=
  ⟨rfl, rfl⟩

/-- Claim C10: after `hasColumn` has returned true, `FieldByColumn` returns
a value and never an error, so `getValidIndexes` never propagates an error
from that call. -/
theorem hasColumn_implies_fieldByColumn_ok (i : Info) (hwf : i.wfFields) :
    (∀ c, i.hasColumn c = true → ∃ v, i.FieldByColumn c = .ok v) ∧
      ∃ l, i.getValidIndexes = .ok l :=
  ⟨fun c hc => fieldByColumn_ok_of_hasColumn i hwf c hc,
   ⟨_, validIndexesLoop_eq i hwf _⟩⟩

/-- Witness for claim C10 at a concrete record and column. -/
theorem hasColumn_implies_fieldByColumn_ok_witness :
    ∃ v, info1.FieldByColumn "alias" = Except.ok v :=
  (hasColumn_implies_fieldByColumn_ok info1 info1_wfFields).1 "alias" (by decide)

/-- Claim C4: `ColumnByPtr` resolves a field identity to at most one column:
for every pointer to a tagged field it returns that field's column name; a
non-pointer argument, a pointer to an untagged field, and a pointer that
does not correspond to any field all produce an error and no column name. -/
theorem columnByPtr_resolves_tagged_fields (table : TableSchema) (r : RecordObj) (info : Info)
    (h : NewInfo table (.ptrToStruct r) = .ok info) :
    (∀ t, info.ColumnByPtr (.nonPtr t)
        = .error (.wrongType "ColumnByPointer" "pointer to a field in the struct")) ∧
    (∀ j p, r.fields.get? j = some p → p.1.tag ≠ "" →
        info.ColumnByPtr (.ptrAt j) = .ok p.1.tag) ∧
    (∀ j p, r.fields.get? j = some p → p.1.tag = "" →
        info.ColumnByPtr (.ptrAt j) = .error .fieldNoOrm) ∧
    (∀ j, r.fields.length ≤ j → info.ColumnByPtr (.ptrAt j) = .error .ptrNoField) := by
  obtain ⟨hobj, -, -⟩ := NewInfo_ok_parts table r info h
  refine ⟨fun t => rfl, ?_, ?_, ?_⟩
  · intro j p hj ht
    have hdecl : (info.obj.fields.map (fun p => p.1)).get? j = some p.1 := by
      rw [hobj, List.get?_map, hj]
      rfl
    have hloop := columnByPtrLoop_get info (info.obj.fields.map (fun q => q.1)) 0 j p.1 hdecl
    rw [Nat.zero_add] at hloop
    rw [Info.ColumnByPtr, hloop]
    have hmem : p ∈ r.fields := List.get?_mem hj
    have hsome : (lookupAssoc info.fields p.1.tag).isSome = true :=
      (info_dom table r info h p.1.tag).mpr (tag_mem_taggedColumns r p hmem ht)
    rw [hsome]
    rfl
  · intro j p hj ht
    have hdecl : (info.obj.fields.map (fun p => p.1)).get? j = some p.1 := by
      rw [hobj, List.get?_map, hj]
      rfl
    have hloop := columnByPtrLoop_get info (info.obj.fields.map (fun q => q.1)) 0 j p.1 hdecl
    rw [Nat.zero_add] at hloop
    rw [Info.ColumnByPtr, hloop]
    have hnone : (lookupAssoc info.fields p.1.tag).isSome = false := by
      rcases hs : (lookupAssoc info.fields p.1.tag).isSome with _ | _
      · rfl
      · have := (info_dom table r info h p.1.tag).mp hs
        rw [ht] at this
        exact absurd this (empty_not_mem_taggedColumns r)
    rw [hnone]
    rfl
  · intro j hle
    rw [Info.ColumnByPtr]
    refine columnByPtrLoop_out info _ 0 j ?_
    rw [hobj, List.length_map, Nat.zero_add]
    exact hle

/-- Witness for claim C4: the pointer to field position 1 of the record
resolves to the column `name`. -/
theorem columnByPtr_resolves_tagged_fields_witness :
    info1.ColumnByPtr (.ptrAt 1) = Except.ok "name" :=
  (columnByPtr_resolves_tagged_fields table1 rec1 info1 rfl).2.1 1
    (⟨"Name", "name", GoType.str⟩, GoValue.str "br0") rfl (by decide)

/-- Claim C6: `FieldByColumn` returns the value of the record field tagged
with the column when such a field exists, and the unknown-column error when
no tagged field maps to the column. -/
theorem fieldByColumn_ok_iff_tagged (table : TableSchema) (r : RecordObj) (info : Info)
    (h : NewInfo table (.ptrToStruct r) = .ok info) (hwf : r.wf) (c : String) :
    (c ∈ r.taggedColumns →
      ∃ p, p ∈ r.fields ∧ p.1.tag = c ∧ info.FieldByColumn c = .ok p.2) ∧
    (c ∉ r.taggedColumns → info.FieldByColumn c = .error (.unknownColumn c)) := by
  obtain ⟨hobj, -, -⟩ := NewInfo_ok_parts table r info h
  constructor
  · intro hc
    have hdom := (info_dom table r info h c).mpr hc
    rcases hl : lookupAssoc info.fields c with _ | fn
    · rw [hl] at hdom
      cases hdom
    · obtain ⟨p, hp, htag, hname, -, -⟩ := info_mem table r info h c fn hl
      refine ⟨p, hp, htag, ?_⟩
      have hfind : r.fields.find? (fun q => q.1.name == p.1.name) = some p :=
        find?_name_of_nodup r.fields hwf p hp
      simp only [Info.FieldByColumn, hl]
      rw [hobj]
      simp only [RecordObj.lookupField]
      rw [← hname, hfind]
  · intro hc
    rcases hl : lookupAssoc info.fields c with _ | fn
    · simp [Info.FieldByColumn, hl]
    · exact absurd ((info_dom table r info h c).mp (by rw [hl]; rfl)) hc

/-- The concrete record has duplicate-free field names. -/
theorem rec1_wf : rec1.wf := by
  show (rec1.fields.map (fun p => p.1.name)).Nodup
  decide

/-- Witness for claim C6: an unmapped column is rejected with the
unknown-column error. -/
theorem fieldByColumn_ok_iff_tagged_witness :
    info1.FieldByColumn "bogus" = Except.error (MapperError.unknownColumn "bogus") :=
  (fieldByColumn_ok_iff_tagged table1 rec1 info1 rfl rec1_wf "bogus").2 (by decide)

/-- Claim C7: fields with an empty or absent tag are not part of the
mapping: erasing them changes neither the outcome of `NewInfo` nor the
column-to-field map, and every binding of a constructed `Info` resolves to a
tagged field (no column resolves to an untagged field through
`FieldByColumn` or `SetField`, which consult only this map). -/
theorem untagged_fields_ignored (table : TableSchema) (r : RecordObj) :
    ((NewInfo table (.ptrToStruct r)).map Info.fields
      = (NewInfo table (.ptrToStruct r.eraseUntagged)).map Info.fields) ∧
    (∀ info, NewInfo table (.ptrToStruct r) = .ok info →
      lookupAssoc info.fields "" = none ∧
      ∀ c fn, lookupAssoc info.fields c = some fn →
        ∃ p, p ∈ r.fields ∧ p.1.name = fn ∧ p.1.tag = c ∧ c ≠ "") := by
  constructor
  · have hdecls : ((r.fields.filter (fun p => !(p.1.tag == ""))).map (fun p => p.1))
        = ((r.fields.map (fun p => p.1)).filter (fun d => !(d.tag == ""))) := by
      rw [List.filter_map]
      rfl
    simp only [NewInfo, RecordObj.eraseUntagged]
    rw [hdecls, newInfoFields_filter_untagged]
    cases hE : newInfoFields table r.typeName (r.fields.map (fun p => p.1)) [] with
    | error e => rfl
    | ok m => rfl
  · intro info h
    constructor
    · rcases hl : lookupAssoc info.fields "" with _ | fn
      · rfl
      · obtain ⟨p, hp, htag, hname, hne, -⟩ := info_mem table r info h "" fn hl
        exact absurd rfl hne
    · intro c fn hl
      obtain ⟨p, hp, htag, hname, hne, -⟩ := info_mem table r info h c fn hl
      exact ⟨p, hp, hname, htag, hne⟩

/-- Witness for claim C7: the untagged scratch field of the concrete record
never enters the mapping. -/
theorem untagged_fields_ignored_witness :
    lookupAssoc info1.fields "" = none :=
  ((untagged_fields_ignored table1 rec1).2 info1 rfl).1

/-- Claim C8: a constructed `Info` maps exactly the columns appearing as
tags on the record's fields, all of which exist in the table schema;
`FieldByColumn` succeeds exactly on these columns, `SetField` can succeed
exactly on these columns, and `SetField` preserves the map, the schema and
the record's field declarations. -/
theorem newInfo_fields_invariant (table : TableSchema) (r : RecordObj) (info : Info)
    (h : NewInfo table (.ptrToStruct r) = .ok info) :
    (info.obj = r ∧ info.table = table) ∧
    (∀ c, (lookupAssoc info.fields c).isSome = true ↔ c ∈ r.taggedColumns) ∧
    (∀ c fn, lookupAssoc info.fields c = some fn → (table.Column c).isSome = true) ∧
    (∀ c, exceptIsOk (info.FieldByColumn c) = true ↔ (lookupAssoc info.fields c).isSome = true) ∧
    (∀ c, (∃ v, (info.SetField c v).1 = .ok ()) ↔ (lookupAssoc info.fields c).isSome = true) ∧
    (∀ c v, ((info.SetField c v).2).fields = info.fields ∧
      ((info.SetField c v).2).table = info.table ∧
      ((info.SetField c v).2).obj.fields.map (fun p => p.1) = r.fields.map (fun p => p.1)) := by
  obtain ⟨hobj, htab, -⟩ := NewInfo_ok_parts table r info h
  have hwf := NewInfo_wfFields table r info h
  refine ⟨⟨hobj, htab⟩, info_dom table r info h, ?_, ?_, ?_, ?_⟩
  · intro c fn hl
    obtain ⟨p, -, -, -, -, cs, hcs, -⟩ := info_mem table r info h c fn hl
    rw [hcs]
    rfl
  · intro c
    constructor
    · intro hok
      rcases hl : lookupAssoc info.fields c with _ | fn
      · simp only [Info.FieldByColumn, hl] at hok
        cases hok
      · rfl
    · intro hs
      obtain ⟨v, hv⟩ := fieldByColumn_ok_of_hasColumn info hwf c hs
      rw [hv]
      rfl
  · intro c
    constructor
    · rintro ⟨v, hv⟩
      rcases hl : lookupAssoc info.fields c with _ | fn
      · simp only [Info.SetField, hl] at hv
        cases hv
      · rfl
    · intro hs
      rcases hl : lookupAssoc info.fields c with _ | fn
      · simp [hl] at hs
      · have hmem := lookupAssoc_mem info.fields c fn hl
        have hsome := hwf (c, fn) hmem
        rcases hf : info.obj.lookupField fn with _ | p
        · rw [hf] at hsome
          cases hsome
        · refine ⟨zeroValue p.1.type, ?_⟩
          have hassign : assignableTo p.1.type (zeroValue p.1.type).typeOf = true := by
            rw [typeOf_zeroValue]
            simp [assignableTo]
          simp [Info.SetField, hl, hf, hassign]
  · intro c v
    rcases setField_snd_shape info c v with h2 | ⟨fn, nv, h2⟩ <;> rw [h2]
    · exact ⟨rfl, rfl, by rw [hobj]⟩
    · exact ⟨rfl, rfl, by rw [setFieldValue_decls, hobj]⟩

/-- Witness for claim C8: the column `color` is mapped on the concrete
record, hence in the schema and settable. -/
theorem newInfo_fields_invariant_witness :
    (lookupAssoc info1.fields "color").isSome = true :=
  ((newInfo_fields_invariant table1 rec1 info1 rfl).2.1 "color").mpr (by decide)

end LibOVSDB
